import Mathlib

/-!
Shallow embedding of `src/lib/session-persistence.js` from the todos-heroku
repository: a session-scoped data-access layer storing todo lists and todos.

JavaScript in-place mutation of the session-owned array is modelled by
explicit state passing: every mutating method takes a `SessionPersistence`
state and returns the `Bool` result paired with the successor state.
The `deep-copy` collaborator produces an independent structural clone, which
in a value-semantic embedding is the identity, so it is omitted.  The
`next-id` collaborator (an external ID generator, not under `src/`) is
modelled by passing the fresh id as an explicit argument.
-/

/-- A todo item: `{ id, title, done }` as pushed by `addNewTodo`. -/
structure Todo where
  id : Nat
  title : String
  done : Bool
deriving Repr, DecidableEq

/-- A todo list: `{ title, id, todos }` as pushed by `createTodoList`. -/
structure TodoList where
  id : Nat
  title : String
  todos : List Todo
deriving Repr, DecidableEq

/-- The store state: the session-owned `this._todoLists` array. -/
structure SessionPersistence where
  todoLists : List TodoList
deriving Repr, DecidableEq

/-- `isDoneTodoList(todoList)`:
`todoList.todos.length > 0 && todoList.todos.every(todo => todo.done)`. -/
def isDoneTodoList (todoList : TodoList) : Bool :=
  decide (todoList.todos.length > 0) && todoList.todos.all (fun todo => todo.done)

/-- `hasUndoneTodos(todoList)`: `todoList.todos.some(todo => !todo.done)`. -/
def hasUndoneTodos (todoList : TodoList) : Bool :=
  todoList.todos.any (fun todo => !todo.done)

/-- `_findTodoList(todoListId)`:
`this._todoLists.find(todoList => todoList.id === todoListId)`;
`undefined` becomes `none`. -/
def _findTodoList (s : SessionPersistence) (todoListId : Nat) : Option TodoList :=
  s.todoLists.find? (fun todoList => todoList.id == todoListId)

/-- `_findTodo(todoListId, todoId)`: looks up the list, then
`todoList.todos.find(todo => todo.id === todoId)`. -/
def _findTodo (s : SessionPersistence) (todoListId todoId : Nat) : Option Todo :=
  match _findTodoList s todoListId with
  | none => none
  | some todoList => todoList.todos.find? (fun todo => todo.id == todoId)

/-- `loadTodoList(todoListId)`: `deepCopy(this._findTodoList(todoListId))`;
deep copy is the identity under value semantics, `undefined` becomes `none`. -/
def loadTodoList (s : SessionPersistence) (todoListId : Nat) : Option TodoList :=
  _findTodoList s todoListId

/-- `loadTodo(todoListId, todoId)`: `deepCopy(this._findTodo(todoListId, todoId))`. -/
def loadTodo (s : SessionPersistence) (todoListId todoId : Nat) : Option Todo :=
  _findTodo s todoListId todoId

/-- Apply `f` to the first element satisfying `p`, leaving the rest unchanged.
This captures the JavaScript pattern of mutating, through the reference
returned by `find`, the first matching element of the underlying array. -/
def updateFirst (p : α → Bool) (f : α → α) : List α → List α
  | [] => []
  | x :: xs => if p x then f x :: xs else x :: updateFirst p f xs

/-- `createTodoList(title)`: pushes `{ title, id: nextId(), todos: [] }` and
returns `true`.  The fresh id from the external `next-id` collaborator is
passed explicitly as `newId`. -/
def createTodoList (s : SessionPersistence) (title : String) (newId : Nat) :
    Bool × SessionPersistence :=
  (true, ⟨s.todoLists ++ [{ title := title, id := newId, todos := [] }]⟩)

/-- `toggleDoneTodo(todoListId, todoId)`: if `_findTodo` fails return `false`;
otherwise flip `todo.done` in place (on the first matching todo of the first
matching list) and return `true`. -/
def toggleDoneTodo (s : SessionPersistence) (todoListId todoId : Nat) :
    Bool × SessionPersistence :=
  match _findTodo s todoListId todoId with
  | none => (false, s)
  | some _ =>
    (true, ⟨updateFirst (fun todoList => todoList.id == todoListId)
      (fun todoList =>
        { todoList with
          todos := updateFirst (fun todo => todo.id == todoId)
            (fun todo => { todo with done := !todo.done }) todoList.todos })
      s.todoLists⟩)

/-- `deleteTodo(todoListId, todoId)`: `false` if the list is missing or
`findIndex` yields `-1`; otherwise `splice` out the first matching todo. -/
def deleteTodo (s : SessionPersistence) (todoListId todoId : Nat) :
    Bool × SessionPersistence :=
  match _findTodoList s todoListId with
  | none => (false, s)
  | some todoList =>
    match todoList.todos.findIdx? (fun todo => todo.id == todoId) with
    | none => (false, s)
    | some _ =>
      (true, ⟨updateFirst (fun tl => tl.id == todoListId)
        (fun tl => { tl with todos := tl.todos.eraseP (fun todo => todo.id == todoId) })
        s.todoLists⟩)

/-- `deleteTodoList(todoListId)`: `false` if `findIndex` yields `-1`;
otherwise `splice` out the first matching list. -/
def deleteTodoList (s : SessionPersistence) (todoListId : Nat) :
    Bool × SessionPersistence :=
  match s.todoLists.findIdx? (fun todoList => todoList.id == todoListId) with
  | none => (false, s)
  | some _ =>
    (true, ⟨s.todoLists.eraseP (fun todoList => todoList.id == todoListId)⟩)

/-- `markAllDone(todoListId)`: `false` if the list is missing; otherwise
`forEach(todo => todo.done = true)` over its todos. -/
def markAllDone (s : SessionPersistence) (todoListId : Nat) :
    Bool × SessionPersistence :=
  match _findTodoList s todoListId with
  | none => (false, s)
  | some _ =>
    (true, ⟨updateFirst (fun tl => tl.id == todoListId)
      (fun tl => { tl with todos := tl.todos.map (fun todo => { todo with done := true }) })
      s.todoLists⟩)

/-- `addNewTodo(todoListId, title)`: `false` if the list is missing; otherwise
push `{ id: nextId(), title, done: false }`.  Fresh id passed as `newId`. -/
def addNewTodo (s : SessionPersistence) (todoListId : Nat) (title : String) (newId : Nat) :
    Bool × SessionPersistence :=
  match _findTodoList s todoListId with
  | none => (false, s)
  | some _ =>
    (true, ⟨updateFirst (fun tl => tl.id == todoListId)
      (fun tl => { tl with todos := tl.todos ++ [{ id := newId, title := title, done := false }] })
      s.todoLists⟩)

/-- `renameTodoList(todoListId, newTitle)`: `false` if the list is missing;
otherwise assign `todoList.title = newTitle`. -/
def renameTodoList (s : SessionPersistence) (todoListId : Nat) (newTitle : String) :
    Bool × SessionPersistence :=
  match _findTodoList s todoListId with
  | none => (false, s)
  | some _ =>
    (true, ⟨updateFirst (fun tl => tl.id == todoListId)
      (fun tl => { tl with title := newTitle })
      s.todoLists⟩)

/-- `isUniqueList(title)`:
`!this._todoLists.some(todoList => todoList.title === title)`;
JavaScript `===` on strings is exact, case-sensitive comparison. -/
def isUniqueList (s : SessionPersistence) (title : String) : Bool :=
  !(s.todoLists.any (fun todoList => todoList.title == title))

/-- Case-insensitive title order on todo lists, used by the sort collaborator. -/
def titleLe (a b : TodoList) : Prop :=
  a.title.toLower ≤ b.title.toLower

instance : DecidableRel titleLe :=
  fun a b => inferInstanceAs (Decidable (a.title.toLower ≤ b.title.toLower))

instance : IsTotal TodoList titleLe :=
  ⟨fun a b => le_total a.title.toLower b.title.toLower⟩

instance : IsTrans TodoList titleLe :=
  ⟨fun _ _ _ h1 h2 => le_trans h1 h2⟩

/-- Modelled from the spec: the sort collaborator `sortTodoLists` lives in
`lib/sort.js`, which is not under `src/`.  Per the spec, each group is
"ordered by title, case-insensitive, then merged with undone group preceding
done group". -/
def sortTodoLists (undone done : List TodoList) : List TodoList :=
  List.insertionSort titleLe undone ++ List.insertionSort titleLe done

/-- `sortedTodoLists()`: deep-copies the lists, partitions them by
`isDoneTodoList`, and hands `{undone, done}` to the sort collaborator. -/
def sortedTodoLists (s : SessionPersistence) : List TodoList :=
  let todoLists := s.todoLists
  let undone := todoLists.filter (fun todoList => !isDoneTodoList todoList)
  let done := todoLists.filter (fun todoList => isDoneTodoList todoList)
  sortTodoLists undone done

/-- `isUniqueConstraintViolation(_error)`: always `false`; present only to
mirror the pg-persistence API. -/
def isUniqueConstraintViolation (_error : String) : Bool :=
  false

/-! ### Helper lemmas -/

/-- If `g` preserves the predicate `p` on elements satisfying it, searching
after `updateFirst p g` finds the image under `g` of the original first match. -/
theorem find?_updateFirst (p : α → Bool) (g : α → α) (hpg : ∀ x, p (g x) = p x) :
    ∀ l : List α, (updateFirst p g l).find? p = (l.find? p).map g
  | [] => rfl
  | x :: xs => by
    by_cases hx : p x = true
    · simp [updateFirst, hx, List.find?_cons_of_pos, hpg]
    · simp only [updateFirst, Bool.not_eq_true] at hx ⊢
      rw [if_neg (by simp [hx]), List.find?_cons_of_neg _ (by simp [hx]),
        List.find?_cons_of_neg _ (by simp [hx]), find?_updateFirst p g hpg xs]

/-- A fully done todo list has no undone todos and at least one todo. -/
theorem isDone_no_undone (tl : TodoList) (h : isDoneTodoList tl = true) :
    hasUndoneTodos tl = false ∧ tl.todos.length ≠ 0 := by
  simp only [isDoneTodoList, Bool.and_eq_true, decide_eq_true_eq, List.all_eq_true] at h
  refine ⟨?_, by omega⟩
  simp only [hasUndoneTodos, List.any_eq_false, Bool.not_eq_true]
  intro t ht
  simp [h.2 t ht]

/-! ### Claims -/

/-- Claim C2: `isDoneTodoList(L)` is true iff `L` has at least one todo and all
its todos are done; in particular an empty list is never done. -/
theorem isDoneTodoList_spec (L : TodoList) :
    (isDoneTodoList L = true ↔ L.todos ≠ [] ∧ ∀ t ∈ L.todos, t.done = true) ∧
    (L.todos = [] → isDoneTodoList L = false) := by
  constructor
  · simp [isDoneTodoList, List.all_eq_true, List.length_pos]
  · intro h
    simp [isDoneTodoList, h]

/-- Claim C5: after `createTodoList(T)` appends a list titled `T`,
`isUniqueList(T)` reports `false` for every store state and title. -/
theorem createTodoList_not_unique (s : SessionPersistence) (title : String) (newId : Nat) :
    isUniqueList (createTodoList s title newId).2 title = false := by
  simp [createTodoList, isUniqueList, List.any_append]

/-- Claim C7: `isUniqueList(title)` is true iff no stored list has exactly that
title, under case-sensitive comparison; the concrete conjuncts show that a
store holding "Work" still reports "work" as unique but not "Work". -/
theorem isUniqueList_case_sensitive :
    (∀ (s : SessionPersistence) (title : String),
      (isUniqueList s title = true ↔ ∀ tl ∈ s.todoLists, tl.title ≠ title)) ∧
    isUniqueList ⟨[{ id := 1, title := "Work", todos := [] }]⟩ "work" = true ∧
    isUniqueList ⟨[{ id := 1, title := "Work", todos := [] }]⟩ "Work" = false := by
  refine ⟨fun s title => ?_, by decide, by decide⟩
  simp [isUniqueList, List.any_eq_true]

/-- Claim C3: for a `listId` matching no stored list, every mutating operation
returns `false` and leaves the state unchanged.  All operations are total Lean
functions, so none can throw. -/
theorem mutating_ops_missing_list (s : SessionPersistence) (listId todoId newId : Nat)
    (title : String) (h : ∀ tl ∈ s.todoLists, tl.id ≠ listId) :
    toggleDoneTodo s listId todoId = (false, s) ∧
    deleteTodo s listId todoId = (false, s) ∧
    deleteTodoList s listId = (false, s) ∧
    markAllDone s listId = (false, s) ∧
    addNewTodo s listId title newId = (false, s) ∧
    renameTodoList s listId title = (false, s) := by
  have hfind : _findTodoList s listId = none := by
    simp only [_findTodoList, List.find?_eq_none]
    intro tl htl
    simpa using h tl htl
  have hidx : s.todoLists.findIdx? (fun tl => tl.id == listId) = none := by
    rw [List.findIdx?_eq_none_iff]
    intro tl htl
    simpa using h tl htl
  refine ⟨?_, ?_, ?_, ?_, ?_, ?_⟩
  · simp [toggleDoneTodo, _findTodo, hfind]
  · simp [deleteTodo, hfind]
  · simp [deleteTodoList, hidx]
  · simp [markAllDone, hfind]
  · simp [addNewTodo, hfind]
  · simp [renameTodoList, hfind]

/-- Witness for claim C3 at a concrete store and an absent id. -/
theorem mutating_ops_missing_list_witness :
    (∀ tl ∈ (SessionPersistence.mk [{ id := 1, title := "Work", todos := [] }]).todoLists,
      tl.id ≠ 2) ∧
    toggleDoneTodo ⟨[{ id := 1, title := "Work", todos := [] }]⟩ 2 5 =
      (false, ⟨[{ id := 1, title := "Work", todos := [] }]⟩) :=
  ⟨by decide,
    (mutating_ops_missing_list ⟨[{ id := 1, title := "Work", todos := [] }]⟩ 2 5 7 "T"
      (by decide)).1⟩

/-- Claim C9: if the list identified by `listId` exists and has no todos,
`markAllDone` succeeds, yet the list found afterwards is still not done. -/
theorem markAllDone_empty_not_done (s : SessionPersistence) (listId : Nat) (tl : TodoList)
    (hfind : _findTodoList s listId = some tl) (hempty : tl.todos = []) :
    (markAllDone s listId).1 = true ∧
    ∃ tl2, _findTodoList (markAllDone s listId).2 listId = some tl2 ∧
      isDoneTodoList tl2 = false := by
  have hfind' : s.todoLists.find? (fun todoList => todoList.id == listId) = some tl := hfind
  have hupd := find?_updateFirst (fun l : TodoList => l.id == listId)
    (fun l : TodoList =>
      { l with todos := l.todos.map (fun todo => { todo with done := true }) })
    (fun _ => rfl) s.todoLists
  refine ⟨by simp [markAllDone, hfind], ?_⟩
  refine ⟨{ tl with todos := tl.todos.map (fun todo => { todo with done := true }) }, ?_, ?_⟩
  · simp only [markAllDone, hfind]
    show List.find? _ (updateFirst _ _ _) = _
    rw [hupd, hfind']
    rfl
  · simp [isDoneTodoList, hempty]

/-- Witness for claim C9 at a concrete store with an empty list. -/
theorem markAllDone_empty_not_done_witness :
    _findTodoList ⟨[{ id := 1, title := "Work", todos := [] }]⟩ 1 =
      some { id := 1, title := "Work", todos := [] } ∧
    ((markAllDone ⟨[{ id := 1, title := "Work", todos := [] }]⟩ 1).1 = true ∧
      ∃ tl2, _findTodoList (markAllDone ⟨[{ id := 1, title := "Work", todos := [] }]⟩ 1).2 1 =
          some tl2 ∧ isDoneTodoList tl2 = false) :=
  ⟨by decide,
    markAllDone_empty_not_done ⟨[{ id := 1, title := "Work", todos := [] }]⟩ 1
      { id := 1, title := "Work", todos := [] } (by decide) rfl⟩

/-- Reduction of `_findTodoList` on an explicitly constructed state. -/
theorem _findTodoList_mk (ls : List TodoList) (listId : Nat) :
    _findTodoList ⟨ls⟩ listId = ls.find? (fun tl => tl.id == listId) := rfl

/-- Reduction of `_findTodo` on an explicitly constructed state. -/
theorem _findTodo_mk (ls : List TodoList) (listId todoId : Nat) :
    _findTodo ⟨ls⟩ listId todoId =
      match ls.find? (fun tl => tl.id == listId) with
      | none => none
      | some tl => tl.todos.find? (fun t => t.id == todoId) := rfl

/-- Flipping the same (first matching) todo twice restores the todos. -/
theorem updateFirst_flip_flip (todoId : Nat) : ∀ todos : List Todo,
    updateFirst (fun t => t.id == todoId) (fun t => { t with done := !t.done })
      (updateFirst (fun t => t.id == todoId) (fun t => { t with done := !t.done }) todos) =
      todos
  | [] => rfl
  | t :: ts => by
    by_cases ht : (t.id == todoId) = true
    · simp [updateFirst, ht]
    · simp only [Bool.not_eq_true] at ht
      simp [updateFirst, ht, updateFirst_flip_flip todoId ts]

/-- Flipping the same todo of the same (first matching) list twice restores
the list of todo lists. -/
theorem updateFirst_list_flip_flip (listId todoId : Nat) : ∀ ls : List TodoList,
    updateFirst (fun tl => tl.id == listId)
      (fun tl => { tl with todos := updateFirst (fun t => t.id == todoId) (fun t => { t with done := !t.done }) tl.todos })
      (updateFirst (fun tl => tl.id == listId)
        (fun tl => { tl with todos := updateFirst (fun t => t.id == todoId) (fun t => { t with done := !t.done }) tl.todos }) ls) = ls
  | [] => rfl
  | tl :: tls => by
    by_cases htl : (tl.id == listId) = true
    · simp [updateFirst, htl, updateFirst_flip_flip]
    · simp only [Bool.not_eq_true] at htl
      simp [updateFirst, htl, updateFirst_list_flip_flip listId todoId tls]

/-- Claim C4: `toggleDoneTodo` applied twice with the same ids restores the
whole store state — in particular the targeted todo's `done` flag.  This holds
unconditionally: when the todo exists both applications flip the same flag,
and when it does not exist neither application changes anything. -/
theorem toggleDoneTodo_involutive (s : SessionPersistence) (listId todoId : Nat) :
    (toggleDoneTodo (toggleDoneTodo s listId todoId).2 listId todoId).2 = s := by
  cases hft : _findTodo s listId todoId with
  | none => simp [toggleDoneTodo, hft]
  | some td =>
    obtain ⟨tl0, hfl, htd⟩ : ∃ tl0, _findTodoList s listId = some tl0 ∧
        tl0.todos.find? (fun t => t.id == todoId) = some td := by
      unfold _findTodo at hft
      cases hfl : _findTodoList s listId with
      | none => rw [hfl] at hft; exact absurd hft (by simp)
      | some tl0 => rw [hfl] at hft; exact ⟨tl0, rfl, hft⟩
    have hfl' : s.todoLists.find? (fun tl => tl.id == listId) = some tl0 := hfl
    have hstate1 : (toggleDoneTodo s listId todoId).2 =
        ⟨updateFirst (fun tl => tl.id == listId)
          (fun tl => { tl with todos := updateFirst (fun t => t.id == todoId) (fun t => { t with done := !t.done }) tl.todos }) s.todoLists⟩ := by
      simp [toggleDoneTodo, hft]
    have hupdL := find?_updateFirst (fun tl : TodoList => tl.id == listId)
      (fun tl : TodoList => { tl with todos := updateFirst (fun t => t.id == todoId) (fun t => { t with done := !t.done }) tl.todos })
      (fun _ => rfl) s.todoLists
    have hupdT := find?_updateFirst (fun t : Todo => t.id == todoId)
      (fun t : Todo => { t with done := !t.done }) (fun _ => rfl) tl0.todos
    have hfind2 : _findTodo (toggleDoneTodo s listId todoId).2 listId todoId =
        some { td with done := !td.done } := by
      rw [hstate1, _findTodo_mk, hupdL, hfl']
      show (updateFirst (fun t => t.id == todoId) (fun t => { t with done := !t.done }) tl0.todos).find? (fun t => t.id == todoId) = some { td with done := !td.done }
      rw [hupdT, htd]
      rfl
    rw [hstate1] at hfind2 ⊢
    simp only [toggleDoneTodo, hfind2]
    rw [updateFirst_list_flip_flip]

/-- After erasing the first list with a given id from a collection whose ids
are pairwise distinct, no list with that id can be found. -/
theorem find?_eraseP_distinct (listId : Nat) :
    ∀ ls : List TodoList, ls.Pairwise (fun a b => a.id ≠ b.id) →
      (ls.eraseP (fun tl => tl.id == listId)).find? (fun tl => tl.id == listId) = none
  | [], _ => rfl
  | tl :: tls, h => by
    by_cases htl : (tl.id == listId) = true
    · rw [List.eraseP_cons_of_pos (by simpa using htl), List.find?_eq_none]
      intro x hx
      have hne := (List.pairwise_cons.mp h).1 x hx
      simp only [beq_iff_eq] at htl ⊢
      omega
    · rw [List.eraseP_cons_of_neg (by simpa using htl),
        List.find?_cons_of_neg _ (by simpa using htl)]
      exact find?_eraseP_distinct listId tls (List.pairwise_cons.mp h).2

/-- Claim C6: when all stored ids are distinct, a successful
`deleteTodoList(id)` leaves no list that `loadTodoList(id)` could find, so the
lookup returns the not-found sentinel `none`. -/
theorem deleteTodoList_then_load (s : SessionPersistence) (listId : Nat)
    (hdistinct : s.todoLists.Pairwise (fun a b => a.id ≠ b.id))
    (hsucc : (deleteTodoList s listId).1 = true) :
    loadTodoList (deleteTodoList s listId).2 listId = none := by
  cases hidx : s.todoLists.findIdx? (fun tl => tl.id == listId) with
  | none => simp [deleteTodoList, hidx] at hsucc
  | some i =>
    simp only [deleteTodoList, hidx, loadTodoList]
    rw [_findTodoList_mk]
    exact find?_eraseP_distinct listId s.todoLists hdistinct

/-- Witness for claim C6 at a concrete two-list store with distinct ids. -/
theorem deleteTodoList_then_load_witness :
    ((SessionPersistence.mk [{ id := 1, title := "Work", todos := [] },
        { id := 2, title := "Home", todos := [] }]).todoLists.Pairwise
      (fun a b => a.id ≠ b.id)) ∧
    (deleteTodoList ⟨[{ id := 1, title := "Work", todos := [] },
        { id := 2, title := "Home", todos := [] }]⟩ 1).1 = true ∧
    loadTodoList (deleteTodoList ⟨[{ id := 1, title := "Work", todos := [] },
        { id := 2, title := "Home", todos := [] }]⟩ 1).2 1 = none :=
  ⟨by decide, by decide,
    deleteTodoList_then_load ⟨[{ id := 1, title := "Work", todos := [] },
        { id := 2, title := "Home", todos := [] }]⟩ 1 (by decide) (by decide)⟩

/-- Claim C8: when the list exists but contains no todo with the given id,
`deleteTodo` and `toggleDoneTodo` both return `false` and leave the whole
state unchanged. -/
theorem ops_missing_todo (s : SessionPersistence) (listId todoId : Nat) (tl : TodoList)
    (hfind : _findTodoList s listId = some tl)
    (hnone : ∀ t ∈ tl.todos, t.id ≠ todoId) :
    deleteTodo s listId todoId = (false, s) ∧
    toggleDoneTodo s listId todoId = (false, s) := by
  have hfindT : tl.todos.find? (fun t => t.id == todoId) = none := by
    rw [List.find?_eq_none]
    intro t ht
    simpa using hnone t ht
  have hidxT : tl.todos.findIdx? (fun t => t.id == todoId) = none := by
    rw [List.findIdx?_eq_none_iff]
    intro t ht
    simpa using hnone t ht
  constructor
  · simp [deleteTodo, hfind, hidxT]
  · simp [toggleDoneTodo, _findTodo, hfind, hfindT]

/-- Witness for claim C8 at a concrete store whose only list lacks the todo. -/
theorem ops_missing_todo_witness :
    _findTodoList ⟨[TodoList.mk 1 "Work" [Todo.mk 10 "A" false]]⟩ 1 =
      some (TodoList.mk 1 "Work" [Todo.mk 10 "A" false]) ∧
    (∀ t ∈ (TodoList.mk 1 "Work" [Todo.mk 10 "A" false]).todos, t.id ≠ 99) ∧
    deleteTodo ⟨[TodoList.mk 1 "Work" [Todo.mk 10 "A" false]]⟩ 1 99 =
      (false, ⟨[TodoList.mk 1 "Work" [Todo.mk 10 "A" false]]⟩) :=
  ⟨by decide, by decide,
    (ops_missing_todo ⟨[TodoList.mk 1 "Work" [Todo.mk 10 "A" false]]⟩ 1 99
      (TodoList.mk 1 "Work" [Todo.mk 10 "A" false]) (by decide) (by decide)).1⟩

/-- If `find?` locates an element, `updateFirst` rewrites the list as a `set`
at that element's position, leaving every other position untouched. -/
theorem updateFirst_eq_set (p : α → Bool) (f : α → α) :
    ∀ (l : List α) (x : α), l.find? p = some x →
      ∃ i, l[i]? = some x ∧ updateFirst p f l = l.set i (f x)
  | [], x, h => by simp at h
  | a :: as, x, h => by
    by_cases ha : p a = true
    · rw [List.find?_cons_of_pos _ ha] at h
      injection h with h
      subst h
      exact ⟨0, by simp, by simp [updateFirst, ha]⟩
    · rw [List.find?_cons_of_neg _ (by simpa using ha)] at h
      obtain ⟨i, hget, hupd⟩ := updateFirst_eq_set p f as x h
      refine ⟨i + 1, by simpa using hget, ?_⟩
      simp only [Bool.not_eq_true] at ha
      simp [updateFirst, ha, hupd]

/-- Claim C10: a successful `toggleDoneTodo` rewrites the store as a single
`List.set` at the targeted list's position, whose todos are themselves a
single `List.set` at the targeted todo's position with only `done` flipped:
ids, titles, all other todos and lists, and all ordering are unchanged. -/
theorem toggleDoneTodo_frame (s : SessionPersistence) (listId todoId : Nat)
    (hsucc : (toggleDoneTodo s listId todoId).1 = true) :
    ∃ i tl j td, s.todoLists[i]? = some tl ∧ tl.todos[j]? = some td ∧
      tl.id = listId ∧ td.id = todoId ∧
      (toggleDoneTodo s listId todoId).2.todoLists =
        s.todoLists.set i { tl with todos := tl.todos.set j { td with done := !td.done } } := by
  cases hft : _findTodo s listId todoId with
  | none => simp [toggleDoneTodo, hft] at hsucc
  | some td =>
    obtain ⟨tl0, hfl, htd⟩ : ∃ tl0, _findTodoList s listId = some tl0 ∧
        tl0.todos.find? (fun t => t.id == todoId) = some td := by
      unfold _findTodo at hft
      cases hfl : _findTodoList s listId with
      | none => rw [hfl] at hft; exact absurd hft (by simp)
      | some tl0 => rw [hfl] at hft; exact ⟨tl0, rfl, hft⟩
    have hfl' : s.todoLists.find? (fun tl => tl.id == listId) = some tl0 := hfl
    obtain ⟨i, hgetL, hupdL⟩ := updateFirst_eq_set (fun tl : TodoList => tl.id == listId)
      (fun tl : TodoList => { tl with todos := updateFirst (fun t => t.id == todoId) (fun t => { t with done := !t.done }) tl.todos })
      s.todoLists tl0 hfl'
    obtain ⟨j, hgetT, hupdT⟩ := updateFirst_eq_set (fun t : Todo => t.id == todoId)
      (fun t : Todo => { t with done := !t.done }) tl0.todos td htd
    refine ⟨i, tl0, j, td, hgetL, hgetT, ?_, ?_, ?_⟩
    · simpa using List.find?_some hfl'
    · simpa using List.find?_some htd
    · have hstate : (toggleDoneTodo s listId todoId).2.todoLists =
          updateFirst (fun tl => tl.id == listId)
            (fun tl => { tl with todos := updateFirst (fun t => t.id == todoId) (fun t => { t with done := !t.done }) tl.todos })
            s.todoLists := by
        simp [toggleDoneTodo, hft]
      rw [hstate, hupdL, hupdT]

/-- Witness for claim C10 at a concrete one-list, one-todo store. -/
theorem toggleDoneTodo_frame_witness :
    (toggleDoneTodo ⟨[TodoList.mk 1 "Work" [Todo.mk 10 "A" false]]⟩ 1 10).1 = true ∧
    (∃ i tl j td,
      (SessionPersistence.mk [TodoList.mk 1 "Work" [Todo.mk 10 "A" false]]).todoLists[i]? =
        some tl ∧
      tl.todos[j]? = some td ∧ tl.id = 1 ∧ td.id = 10 ∧
      (toggleDoneTodo ⟨[TodoList.mk 1 "Work" [Todo.mk 10 "A" false]]⟩ 1 10).2.todoLists =
        (SessionPersistence.mk [TodoList.mk 1 "Work" [Todo.mk 10 "A" false]]).todoLists.set i
          { tl with todos := tl.todos.set j { td with done := !td.done } }) :=
  ⟨by decide,
    toggleDoneTodo_frame ⟨[TodoList.mk 1 "Work" [Todo.mk 10 "A" false]]⟩ 1 10 (by decide)⟩

/-- Claim C1: in the output of `sortedTodoLists()`, every list that has
undone todos or has no todos precedes every fully done list, and any two
lists with the same completion status — i.e. within the same partition —
appear with non-decreasing titles under case-insensitive comparison. -/
theorem sortedTodoLists_ordering (s : SessionPersistence) :
    (sortedTodoLists s).Pairwise (fun a b =>
      (isDoneTodoList a = true → ¬(hasUndoneTodos b = true ∨ b.todos.length = 0)) ∧
      (isDoneTodoList a = isDoneTodoList b → a.title.toLower ≤ b.title.toLower)) := by
  have hsortU := List.sorted_insertionSort titleLe
    (s.todoLists.filter (fun tl => !isDoneTodoList tl))
  have hsortD := List.sorted_insertionSort titleLe
    (s.todoLists.filter (fun tl => isDoneTodoList tl))
  have hmemU : ∀ a ∈ List.insertionSort titleLe
      (s.todoLists.filter (fun tl => !isDoneTodoList tl)), isDoneTodoList a = false := by
    intro a ha
    have hmem := (List.mem_insertionSort titleLe).mp ha
    simpa using (List.mem_filter.mp hmem).2
  have hmemD : ∀ a ∈ List.insertionSort titleLe
      (s.todoLists.filter (fun tl => isDoneTodoList tl)), isDoneTodoList a = true := by
    intro a ha
    have hmem := (List.mem_insertionSort titleLe).mp ha
    exact (List.mem_filter.mp hmem).2
  show (List.insertionSort titleLe (s.todoLists.filter (fun tl => !isDoneTodoList tl)) ++
      List.insertionSort titleLe (s.todoLists.filter (fun tl => isDoneTodoList tl))).Pairwise _
  rw [List.pairwise_append]
  refine ⟨?_, ?_, ?_⟩
  · exact List.Pairwise.imp_of_mem
      (fun ha _ hr => ⟨fun had => absurd had (by simp [hmemU _ ha]), fun _ => hr⟩) hsortU
  · refine List.Pairwise.imp_of_mem (fun ha hb hr => ⟨fun _ => ?_, fun _ => hr⟩) hsortD
    obtain ⟨h1, h2⟩ := isDone_no_undone _ (hmemD _ hb)
    rintro (hc | hc)
    · rw [h1] at hc
      exact absurd hc (by simp)
    · exact h2 hc
  · intro a ha b hb
    refine ⟨fun had => absurd had (by simp [hmemU a ha]), fun heq => ?_⟩
    rw [hmemU a ha, hmemD b hb] at heq
    exact absurd heq (by simp)
